import Mathlib

/-!
# Verification of the Pokémon TCG local card-cache manager

A shallow embedding of `download-tcg-cards.js` (the batch tool that builds an
on-disk cache of trading-card images keyed by Pokédex number), together with
proofs and refutations of the specification's claims about it.

Modelling conventions:
* The per-key on-disk directory is a `KeyState`: whether the directory exists,
  the list of `.png` file names present, the optional `metadata.json` content,
  and the optional `.empty` marker content.
* Network effects are oracles: `attempts : Nat → Except String (List Card)`
  gives the outcome of the n-th retry attempt of the candidate fetch (the raw
  `response.data` of `fetchPokemonCards`), and `dl : Nat → Bool` tells whether
  the (retried) image download of the i-th chosen candidate succeeds.
* Timestamps are abstract `Nat` tokens threaded through as `now`.
* `ProcOut` returns the new key state, the number of network operations
  performed, and the `Except`-wrapped `{skipped, count}` result, so that
  "signals an error to its caller" and "performs no network I/O" are statable.
-/

set_option linter.unusedVariables false
set_option linter.unnecessarySeqFocus false

/-- Little-endian base-10 digits, by structural fuel recursion (so that the
kernel can evaluate it on closed numerals). -/
def digitsRec : Nat → Nat → List Nat
  | _, 0 => []
  | 0, _ + 1 => []
  | fuel + 1, n + 1 => (n + 1) % 10 :: digitsRec fuel ((n + 1) / 10)

/-- Little-endian base-10 digits of `n`. -/
def natDigits (n : Nat) : List Nat := digitsRec n n

/-- Decimal rendering of a natural number, as JavaScript's `String(n)`:
the base-10 digits, most significant first. -/
def natStr (n : Nat) : String :=
  if n = 0 then "0" else ⟨((natDigits n).map Nat.digitChar).reverse⟩

/-- `String(n).padStart(2, '0')`, as used for ordinal image file names. -/
def pad2 (n : Nat) : String :=
  if n < 10 then "0" ++ natStr n else natStr n

/-- The image file name assigned to the candidate at 0-based index `i`:
`String(i + 1).padStart(2, '0') + ".png"`. -/
def fname (i : Nat) : String := pad2 (i + 1) ++ ".png"

/-- A card candidate, as consumed by the selection and download code.
`setKey` is the grouping key used for diversification (`card.set.id` on the
remote API path, the set name `card.set` on the bulk GitHub path); `imageUrl`
is `card.images.small` resp. `card.imageSmall`, absent when the record has no
small-image URL. -/
structure Card where
  id : String
  name : String
  setKey : String
  rarity : String
  imageUrl : Option String
deriving DecidableEq, Repr

/-- One entry of `metadata.json`'s `cards` array (a persisted `CachedCard`). -/
structure CardEntry where
  filename : String
  cardId : String
  name : String
  set : String
  rarity : String
  imageUrl : String
deriving DecidableEq, Repr

/-- The per-key `metadata.json` record. -/
structure PokemonMeta where
  pokedexNumber : Nat
  cards : List CardEntry
  downloadedAt : Nat
deriving DecidableEq, Repr

/-- Content of a `.empty` marker file. The script writes free-text reasons;
we keep them structured: an API failure (with the propagated error message),
"No cards found" from the remote path, or "No cards found in GitHub data"
from the bulk path.  Each carries the timestamp token. -/
inductive EmptyReason where
  | apiFailed (err : String) (t : Nat)
  | noCards (t : Nat)
  | noGithubCards (t : Nat)
deriving DecidableEq, Repr

/-- On-disk state of one key's cache directory. -/
structure KeyState where
  dirExists : Bool
  pngs : List String
  metadata : Option PokemonMeta
  emptyMarker : Option EmptyReason
deriving DecidableEq, Repr

/-- Result of `checkPokemonDownloaded`: `readdir` the key's directory
(a nonexistent directory is the `catch` branch), count the `.png` files and
test for `metadata.json`.  Note `exists_` is `pngFiles.length > 0`, not bare
directory existence. -/
structure CheckResult where
  exists_ : Bool
  count : Nat
  hasMetadata : Bool
deriving DecidableEq, Repr

/-- `checkPokemonDownloaded` (the second, effective declaration in each script
variant). -/
def checkPokemonDownloaded (s : KeyState) : CheckResult :=
  if s.dirExists then
    { exists_ := decide (0 < s.pngs.length)
      count := s.pngs.length
      hasMetadata := s.metadata.isSome }
  else
    { exists_ := false, count := 0, hasMetadata := false }

/-- First selection pass, shared verbatim by `diversifyCards` and the inline
loop of `fetchPokemonCards`: walk the candidates in order, take a candidate
whose `setKey` has not been seen, and break as soon as `limit` is reached.
The `limit` is an `Int` because it originates from `parseInt` of `--limit`. -/
def diversifyPass1 (seen : List String) (acc : List Card) (limit : Int) :
    List Card → List Card
  | [] => acc
  | c :: rest =>
    if c.setKey ∈ seen then diversifyPass1 seen acc limit rest
    else
      let acc' := acc ++ [c]
      if (acc'.length : Int) ≥ limit then acc'
      else diversifyPass1 (c.setKey :: seen) acc' limit rest

/-- Second pass of `diversifyCards`: append any candidate whose `id` is not
already chosen, breaking once `limit` is reached. -/
def diversifyPass2 (acc : List Card) (limit : Int) : List Card → List Card
  | [] => acc
  | c :: rest =>
    if acc.any (fun u => u.id = c.id) then diversifyPass2 acc limit rest
    else
      let acc' := acc ++ [c]
      if (acc'.length : Int) ≥ limit then acc'
      else diversifyPass2 acc' limit rest

/-- `diversifyCards(cards, limit)` of the bulk (GitHub) path: one card per
set first, then a fallback filling pass. -/
def diversifyCards (cards : List Card) (limit : Int) : List Card :=
  let unique := diversifyPass1 [] [] limit cards
  if (unique.length : Int) < limit then diversifyPass2 unique limit cards
  else unique

/-- The selection performed inline inside `fetchPokemonCards` on the raw
API response: only the first (one-per-set) pass, with no fallback. -/
def fetchSelect (cards : List Card) (limit : Int) : List Card :=
  diversifyPass1 [] [] limit cards

/-- `retryWithBackoff`, with the delay stripped out: run attempt number
`attempt`; `fuel` counts the retries still allowed after this one, so the
last attempt's outcome (success or failure) is returned as-is. -/
def retryRun (f : Nat → Except String (List Card)) :
    Nat → Nat → Except String (List Card)
  | attempt, 0 => f attempt
  | attempt, fuel + 1 =>
    match f attempt with
    | Except.ok a => Except.ok a
    | Except.error _ => retryRun f (attempt + 1) fuel

/-- `retryWithBackoff(fn)` with the default `CONFIG.RETRY_ATTEMPTS = 3`:
attempts are numbered 1, 2, 3 (two retries of fuel); the last failure is
rethrown. -/
def retryWithBackoff (f : Nat → Except String (List Card)) : Except String (List Card) :=
  retryRun f 1 2

/-- `{skipped, count}` as returned by `downloadPokemonCards`. -/
structure DlResult where
  skipped : Bool
  count : Nat
deriving DecidableEq, Repr

/-- Decidable equality of fallible results. -/
instance {e a : Type} [DecidableEq e] [DecidableEq a] : DecidableEq (Except e a) := fun x y =>
  match x, y with
  | Except.ok u, Except.ok v =>
    if h : u = v then Decidable.isTrue (by rw [h]) else Decidable.isFalse (by simp [h])
  | Except.error u, Except.error v =>
    if h : u = v then Decidable.isTrue (by rw [h]) else Decidable.isFalse (by simp [h])
  | Except.ok _, Except.error _ => Decidable.isFalse (by simp)
  | Except.error _, Except.ok _ => Decidable.isFalse (by simp)

/-- The relevant fields of the options bag. -/
structure Options where
  limit : Int
  force : Bool
deriving DecidableEq, Repr

/-- Which data-source branch `downloadPokemonCards` takes for this key:
`remote` is the `!useGithub || !cardsByPokedex` branch (API query wrapped
in retry), `bulk v` is the `useGithub && cardsByPokedex` branch where `v`
is `cardsByPokedex.get(pokedexNumber)` (`none` = key absent from the map). -/
inductive Mode where
  | remote
  | bulk (lookup : Option (List Card))
deriving DecidableEq, Repr

/-- Output of one `downloadPokemonCards` call: the key's new on-disk state,
the number of network operations performed (fetch attempts plus attempted
image downloads), and the result or the signalled error. -/
structure ProcOut where
  state : KeyState
  net : Nat
  result : Except String DlResult
deriving DecidableEq, Repr

/-- `fs.writeFile` of the `.empty` marker: creates or replaces the sentinel,
touching nothing else in the directory. -/
def writeMarker (s : KeyState) (r : EmptyReason) : KeyState :=
  { s with emptyMarker := some r }

/-- Sequential `fs.writeFile`s of image blobs into the directory: a name
already present is overwritten in place, a new name is added. -/
def writeFiles (pngs : List String) (files : List String) : List String :=
  files.foldl (fun acc f => if f ∈ acc then acc else acc ++ [f]) pngs

/-- The download loop over the chosen candidates (`for i = 0; ...`): the
candidate at index `i` is assigned file name `fname i`; if it has no image
URL it is skipped (`continue`), if its download fails after retries it is
logged and omitted; otherwise the blob is written and a metadata entry is
pushed.  Returns the pushed entries; the files written are exactly their
`filename`s. -/
def downloadLoop (dl : Nat → Bool) : List Card → Nat → List CardEntry
  | [], _ => []
  | c :: rest, i =>
    match c.imageUrl with
    | none => downloadLoop dl rest (i + 1)
    | some url =>
      if dl i then
        { filename := fname i, cardId := c.id, name := c.name,
          set := c.setKey, rarity := c.rarity, imageUrl := url }
          :: downloadLoop dl rest (i + 1)
      else downloadLoop dl rest (i + 1)

/-- How many fetch attempts `retryWithBackoff` actually performs. -/
def retryCount (f : Nat → Except String (List Card)) : Nat → Nat → Nat
  | _, 0 => 1
  | attempt, fuel + 1 =>
    match f attempt with
    | Except.ok _ => 1
    | Except.error _ => 1 + retryCount f (attempt + 1) fuel

/-- Tail of `downloadPokemonCards` once a nonempty chosen list is in hand:
run the download loop, write the blobs, then write `metadata.json`
(which replaces any previous record but deletes neither stale blobs nor a
stale `.empty` marker). -/
def finishDownload (key : Nat) (cards : List Card) (dl : Nat → Bool)
    (now : Nat) (s1 : KeyState) (netBefore : Nat) : ProcOut :=
  let entries := downloadLoop dl cards 0
  let s2 : KeyState :=
    { s1 with
      pngs := writeFiles s1.pngs (entries.map (·.filename))
      metadata := some { pokedexNumber := key, cards := entries, downloadedAt := now } }
  { state := s2
    net := netBefore + (cards.filter (·.imageUrl.isSome)).length
    result := Except.ok { skipped := false, count := entries.length } }

/-- The `!force` skip test of `downloadPokemonCards`:
`existing.exists && existing.hasMetadata` after `mkdir` has ensured the
directory exists, i.e. at least one `.png` and a `metadata.json`. -/
def skipTest (opts : Options) (s : KeyState) : Bool :=
  !opts.force && (decide (0 < s.pngs.length) && s.metadata.isSome)

/-- `downloadPokemonCards(pokedexNumber, options)`: `mkdir -p` the key's
directory, skip if unforced and already complete, obtain candidates from the
configured source, diversify, download, and persist; failures of the
candidate fetch write a `.empty` marker and re-signal the error, an empty
candidate list writes a `.empty` marker and returns `{skipped:false, count:0}`. -/
def downloadPokemonCards (key : Nat) (opts : Options) (mode : Mode)
    (attempts : Nat → Except String (List Card)) (dl : Nat → Bool)
    (now : Nat) (s : KeyState) : ProcOut :=
  let s1 : KeyState := { s with dirExists := true }
  if skipTest opts s1 then
    { state := s1, net := 0, result := Except.ok { skipped := true, count := s1.pngs.length } }
  else
    match mode with
    | Mode.bulk lookup =>
      match lookup with
      | none =>
        { state := writeMarker s1 (EmptyReason.noGithubCards now), net := 0,
          result := Except.ok { skipped := false, count := 0 } }
      | some allCards =>
        if allCards.length = 0 then
          { state := writeMarker s1 (EmptyReason.noGithubCards now), net := 0,
            result := Except.ok { skipped := false, count := 0 } }
        else
          finishDownload key (diversifyCards allCards opts.limit) dl now s1 0
    | Mode.remote =>
      match retryWithBackoff attempts with
      | Except.error e =>
        { state := writeMarker s1 (EmptyReason.apiFailed e now),
          net := retryCount attempts 1 2,
          result := Except.error e }
      | Except.ok rawData =>
        let cards := fetchSelect rawData opts.limit
        if cards.length = 0 then
          { state := writeMarker s1 (EmptyReason.noCards now),
            net := retryCount attempts 1 2,
            result := Except.ok { skipped := false, count := 0 } }
        else
          finishDownload key cards dl now s1 (retryCount attempts 1 2)

/-- Classification of one key by the Analyzer. -/
inductive KeyClass where
  | complete
  | incomplete
  | empty
  | missing
deriving DecidableEq, Repr

/-- The per-key classification performed by `analyzeCache`'s loop body:
`exists && hasMetadata` → complete, `exists && !hasMetadata` → incomplete,
otherwise probe the `.empty` file (`fs.access` succeeds exactly when the
directory exists and holds the marker) → empty, else missing. -/
def classifyKey (s : KeyState) : KeyClass :=
  let st := checkPokemonDownloaded s
  if st.exists_ && st.hasMetadata then KeyClass.complete
  else if st.exists_ && !st.hasMetadata then KeyClass.incomplete
  else if s.dirExists && s.emptyMarker.isSome then KeyClass.empty
  else KeyClass.missing

/-- The four key lists produced by `analyzeCache` (the `complete` list keeps
`{num, count}` pairs, the others bare key numbers), plus the running total. -/
structure Analysis where
  complete : List (Nat × Nat)
  incomplete : List Nat
  empty : List Nat
  missing : List Nat
  total : Nat
deriving DecidableEq, Repr

/-- One iteration of `analyzeCache`'s loop: push key `i` onto the list its
classification selects and bump the total. -/
def analyzePush (σ : Nat → KeyState) (a : Analysis) (i : Nat) : Analysis :=
  let a' :=
    match classifyKey (σ i) with
    | KeyClass.complete =>
      { a with complete := a.complete ++ [(i, (checkPokemonDownloaded (σ i)).count)] }
    | KeyClass.incomplete => { a with incomplete := a.incomplete ++ [i] }
    | KeyClass.empty => { a with empty := a.empty ++ [i] }
    | KeyClass.missing => { a with missing := a.missing ++ [i] }
  { a' with total := a'.total + 1 }

/-- The closed interval of keys `[start, end]` that the loops
`for (let i = start; i <= end; i++)` traverse. -/
def rangeKeys (start stop : Nat) : List Nat :=
  List.range' start (stop + 1 - start)

/-- `analyzeCache(start, end)`: classify every key of the range from the
cache state alone (no network access, no mutation). -/
def analyzeCache (σ : Nat → KeyState) (start stop : Nat) : Analysis :=
  (rangeKeys start stop).foldl (analyzePush σ) ⟨[], [], [], [], 0⟩

/-- The global `metadata.json` record. -/
structure GlobalMeta where
  lastUpdate : Option Nat
  version : String
deriving DecidableEq, Repr

/-- `loadMetadata()`: read the global record, falling back to the default
`{pokemon:{}, lastUpdate:null, version:'1.0'}` when the file is absent. -/
def loadMetadata (disk : Option GlobalMeta) : GlobalMeta :=
  disk.getD { lastUpdate := none, version := "1.0" }

/-- `saveMetadata(metadata)`: stamp `lastUpdate` with the current time and
write the record back. -/
def saveMetadata (g : GlobalMeta) (now : Nat) : GlobalMeta :=
  { g with lastUpdate := some now }

/-- The whole cache directory: one `KeyState` per key plus the global
`metadata.json` (`none` when that file does not exist yet). -/
structure World where
  keys : Nat → KeyState
  global : Option GlobalMeta

/-- Run `downloadPokemonCards` sequentially over a list of keys, threading
the on-disk states and collecting each key's outcome in order.  The per-key
oracles are indexed by the key number. -/
def runKeys (modeOf : Nat → Mode)
    (attemptsOf : Nat → Nat → Except String (List Card))
    (dlOf : Nat → Nat → Bool) (opts : Options) (now : Nat) :
    List Nat → (Nat → KeyState) → (Nat → KeyState) × List (Nat × Except String DlResult)
  | [], σ => (σ, [])
  | i :: rest, σ =>
    let out := downloadPokemonCards i opts (modeOf i) (attemptsOf i) (dlOf i) now (σ i)
    let (σ', outs) := runKeys modeOf attemptsOf dlOf opts now rest (Function.update σ i out.state)
    (σ', (i, out.result) :: outs)

/-- Aggregated run statistics. -/
structure Stats where
  total : Nat
  success : Nat
  skipped : Nat
  failed : Nat
  cardsDownloaded : Nat
deriving DecidableEq, Repr

/-- Stats folding of `downloadRange`: a skipped key, a successful key
(adding its card count), or a caught failure. -/
def rangeStats (outs : List (Nat × Except String DlResult)) : Stats :=
  outs.foldl
    (fun st o =>
      match o.2 with
      | Except.ok r =>
        if r.skipped then { st with skipped := st.skipped + 1 }
        else { st with success := st.success + 1,
                       cardsDownloaded := st.cardsDownloaded + r.count }
      | Except.error _ => { st with failed := st.failed + 1 })
    { total := outs.length, success := 0, skipped := 0, failed := 0, cardsDownloaded := 0 }

/-- `downloadRange(start, end, options)` (sequential mode; the concurrent
branch performs the same per-key calls in chunks and reaches the same final
metadata save): process every key of the closed range, then load and re-save
the global metadata. -/
def downloadRange (modeOf : Nat → Mode)
    (attemptsOf : Nat → Nat → Except String (List Card))
    (dlOf : Nat → Nat → Bool) (opts : Options) (start stop now : Nat)
    (w : World) : World × Stats :=
  let (σ', outs) := runKeys modeOf attemptsOf dlOf opts now (rangeKeys start stop) w.keys
  ({ keys := σ', global := some (saveMetadata (loadMetadata w.global) now) },
   rangeStats outs)

/-- Insert into an ascending list (helper for the numeric sort). -/
def insSorted (n : Nat) : List Nat → List Nat
  | [] => [n]
  | m :: rest => if n ≤ m then n :: m :: rest else m :: insSorted n rest

/-- `[...].sort((a, b) => a - b)`: ascending numeric sort. -/
def sortAsc (l : List Nat) : List Nat := l.foldr insSorted []

/-- The target set of `downloadMissing`:
`incomplete ∪ missing ∪ (empty if retryFailed)`, numerically sorted. -/
def toDownloadList (a : Analysis) (retryFailed : Bool) : List Nat :=
  sortAsc (a.incomplete ++ a.missing ++ (if retryFailed then a.empty else []))

/-- Stats folding of `downloadMissing`: only non-skipped successes and
failures are counted. -/
def missingStats (outs : List (Nat × Except String DlResult)) : Stats :=
  outs.foldl
    (fun st o =>
      match o.2 with
      | Except.ok r =>
        if r.skipped then st
        else { st with success := st.success + 1,
                       cardsDownloaded := st.cardsDownloaded + r.count }
      | Except.error _ => { st with failed := st.failed + 1 })
    { total := outs.length, success := 0, skipped := 0, failed := 0, cardsDownloaded := 0 }

/-- `downloadMissing(start, end, options)` (sequential mode): analyze the
range, build the target list, and — only when it is nonempty — process its
keys and then load and re-save the global metadata.  When the target list is
empty the function returns immediately, leaving the world untouched. -/
def downloadMissing (modeOf : Nat → Mode)
    (attemptsOf : Nat → Nat → Except String (List Card))
    (dlOf : Nat → Nat → Bool) (opts : Options) (retryFailed : Bool)
    (start stop now : Nat) (w : World) : World × Stats :=
  let analysis := analyzeCache w.keys start stop
  let toDownload := toDownloadList analysis retryFailed
  if toDownload = [] then
    (w, { total := 0, success := 0, skipped := 0, failed := 0, cardsDownloaded := 0 })
  else
    let (σ', outs) := runKeys modeOf attemptsOf dlOf opts now toDownload w.keys
    ({ keys := σ', global := some (saveMetadata (loadMetadata w.global) now) },
     missingStats outs)

/-! ### Specification-level definitions (refinement targets)

These are written from the specification's words, to be compared with the
definitions translated from the source above. -/

/-- Modelled from the spec: the subsequence keeping, in input order, the
first candidate of each distinct source set. -/
def firstPerSet : List Card → List Card
  | [] => []
  | c :: rest => c :: firstPerSet (rest.filter (fun x => x.setKey ≠ c.setKey))
termination_by l => l.length
decreasing_by
  simp only [List.length_cons]
  exact Nat.lt_succ_of_le (List.length_filter_le _ _)

/-- Modelled from the spec (§4.3): phase 1 takes the first candidate of each
not-yet-seen source set, in input order, stopping at `limit`; if fewer than
`limit` were chosen, phase 2 appends the not-already-chosen candidates in
original order until `limit` is reached or the candidates are exhausted. -/
def selectSpec (cards : List Card) (limit : Int) : List Card :=
  let u := (firstPerSet cards).take limit.toNat
  if (u.length : Int) < limit then
    (u ++ cards.filter (fun c => ¬ c.id ∈ u.map (·.id))).take limit.toNat
  else u

/-- Number of image files visible on disk for a key. -/
def fileCountFS (s : KeyState) : Nat := if s.dirExists then s.pngs.length else 0

/-- Whether `metadata.json` is visible on disk for a key. -/
def hasMetadataFS (s : KeyState) : Bool := s.dirExists && s.metadata.isSome

/-- Whether the `.empty` marker is visible on disk for a key. -/
def hasMarkerFS (s : KeyState) : Bool := s.dirExists && s.emptyMarker.isSome

/-- Modelled from the spec (claim C3's classification rule, in its stated
priority order): metadata with files → complete; otherwise empty-marker
present → empty; otherwise directory exists with files → incomplete;
otherwise missing. -/
def classifySpec (s : KeyState) : KeyClass :=
  if hasMetadataFS s && decide (0 < fileCountFS s) then KeyClass.complete
  else if hasMarkerFS s then KeyClass.empty
  else if s.dirExists && decide (0 < fileCountFS s) then KeyClass.incomplete
  else KeyClass.missing

/-- The classification rule actually implemented: metadata with files →
complete; otherwise files present (even alongside an `.empty` marker) →
incomplete; otherwise marker present → empty; otherwise missing. -/
def classifyAmended (s : KeyState) : KeyClass :=
  if hasMetadataFS s && decide (0 < fileCountFS s) then KeyClass.complete
  else if s.dirExists && decide (0 < fileCountFS s) then KeyClass.incomplete
  else if hasMarkerFS s then KeyClass.empty
  else KeyClass.missing

/-! ### Concrete fixtures used by counterexamples and witnesses -/

/-- A candidate with the given id, from set `sk`. -/
def mkCard (idStr : String) (sk : String) : Card :=
  { id := idStr, name := "card", setKey := sk, rarity := "Rare",
    imageUrl := some ("https://img/" ++ idStr) }

/-- Five candidates, all from the single set `"A"`. -/
def oneSet5 : List Card :=
  [mkCard "c1" "A", mkCard "c2" "A", mkCard "c3" "A", mkCard "c4" "A", mkCard "c5" "A"]

/-- Two candidates from two distinct sets. -/
def twoCards : List Card := [mkCard "c1" "A", mkCard "c2" "B"]

/-- A key that has never been attempted: no directory at all. -/
def freshKS : KeyState :=
  { dirExists := false, pngs := [], metadata := none, emptyMarker := none }

/-- A metadata entry for the fixtures. -/
def entry1 : CardEntry :=
  { filename := "01.png", cardId := "1", name := "card", set := "A",
    rarity := "Rare", imageUrl := "https://img/1" }

/-- A key completed by an earlier run with three images on disk. -/
def threeCardKS : KeyState :=
  { dirExists := true, pngs := ["01.png", "02.png", "03.png"],
    metadata := some { pokedexNumber := 7, cards := [entry1, entry1, entry1],
                       downloadedAt := 0 },
    emptyMarker := none }

/-- A complete key with one image on disk. -/
def completeKS : KeyState :=
  { dirExists := true, pngs := ["01.png"],
    metadata := some { pokedexNumber := 1, cards := [entry1], downloadedAt := 0 },
    emptyMarker := none }

/-- A crash artifact: image files and an `.empty` marker, but no metadata. -/
def brokenMarkedKS : KeyState :=
  { dirExists := true, pngs := ["01.png"], metadata := none,
    emptyMarker := some (EmptyReason.noCards 0) }

/-- A fetch oracle whose every attempt fails. -/
def failFetch : Nat → Except String (List Card) := fun _ => Except.error "HTTP 504"

/-- A fetch oracle that succeeds immediately with the two-set candidate list. -/
def okFetch : Nat → Except String (List Card) := fun _ => Except.ok twoCards

/-- Options `{limit: 10, force: false}` (the defaults). -/
def defOpts : Options := { limit := 10, force := false }

/-- Options `{limit: 10, force: true}`. -/
def forceOpts : Options := { limit := 10, force := true }

/-- The key state left by a failed first attempt on a fresh key. -/
def failedOnceKS : KeyState :=
  (downloadPokemonCards 7 defOpts Mode.remote failFetch (fun _ => true) 1 freshKS).state

/-- The process call of the C8 counterexample: bulk mode over `twoCards`,
where the first image download fails and the second succeeds. -/
def gapOut : ProcOut :=
  downloadPokemonCards 7 defOpts (Mode.bulk (some twoCards)) failFetch
    (fun i => i == 1) 5 freshKS

/-- The process call of the C4 counterexample: a forced re-run over a key
that already has three images, now downloading a single card. -/
def forcedFewerOut : ProcOut :=
  downloadPokemonCards 7 forceOpts (Mode.bulk (some [mkCard "c1" "A"]))
    failFetch (fun _ => true) 5 threeCardKS

/-- The process call of the C5 counterexample: a successful remote run on the
key state left behind by a failed attempt. -/
def recoveredOut : ProcOut :=
  downloadPokemonCards 7 defOpts Mode.remote okFetch (fun _ => true) 2 failedOnceKS

/-- A world whose every key is complete and whose global metadata file does
not exist yet. -/
def allCompleteWorld : World := { keys := fun _ => completeKS, global := none }

/-! ## Lemmas -/

/-! ### Injectivity of the ordinal file names -/

theorem digitChar_inj_lt : ∀ a < 10, ∀ b < 10, Nat.digitChar a = Nat.digitChar b → a = b := by
  decide

theorem digitChar_ne_zero_char : ∀ d < 10, d ≠ 0 → Nat.digitChar d ≠ '0' := by
  decide

theorem mapDigitChar_inj : ∀ (l1 l2 : List Nat), (∀ x ∈ l1, x < 10) → (∀ x ∈ l2, x < 10) →
    l1.map Nat.digitChar = l2.map Nat.digitChar → l1 = l2
  | [], [], _, _, _ => rfl
  | [], _ :: _, _, _, h => by simp at h
  | _ :: _, [], _, _, h => by simp at h
  | a :: l1, b :: l2, h1, h2, h => by
    simp only [List.map_cons, List.cons.injEq] at h
    have hab : a = b := digitChar_inj_lt a (h1 a (by simp)) b (h2 b (by simp)) h.1
    have htl := mapDigitChar_inj l1 l2 (fun x hx => h1 x (by simp [hx]))
      (fun x hx => h2 x (by simp [hx])) h.2
    rw [hab, htl]

theorem digits10_lt (n : Nat) : ∀ x ∈ Nat.digits 10 n, x < 10 :=
  fun _ hx => Nat.digits_lt_base (by norm_num) hx

theorem digitsRec_eq_digits : ∀ (fuel n : Nat), n ≤ fuel → digitsRec fuel n = Nat.digits 10 n
  | _, 0, _ => by simp [digitsRec]
  | 0, n + 1, h => by omega
  | fuel + 1, n + 1, h => by
    have hdiv : (n + 1) / 10 ≤ fuel := by
      have := Nat.div_lt_self (Nat.succ_pos n) (by norm_num : 1 < 10)
      omega
    rw [digitsRec, digitsRec_eq_digits fuel ((n + 1) / 10) hdiv,
      Nat.digits_def' (by norm_num : 1 < 10) (Nat.succ_pos n)]

theorem natDigits_eq (n : Nat) : natDigits n = Nat.digits 10 n :=
  digitsRec_eq_digits n n (le_refl n)

theorem natStr_zero : natStr 0 = "0" := rfl

theorem natStr_data_of_ne_zero {n : Nat} (h : n ≠ 0) :
    (natStr n).data = ((Nat.digits 10 n).map Nat.digitChar).reverse := by
  simp [natStr, h, natDigits_eq]

theorem natStr_inj {m n : Nat} (h : natStr m = natStr n) : m = n := by
  have hd := congrArg String.data h
  by_cases hm : m = 0 <;> by_cases hn : n = 0
  · rw [hm, hn]
  · exfalso
    rw [hm, natStr_zero, natStr_data_of_ne_zero hn] at hd
    have hrev : (Nat.digits 10 n).map Nat.digitChar = ['0'] := by
      have := congrArg List.reverse hd
      simpa using this.symm
    have h0 : Nat.digits 10 n = [0] :=
      mapDigitChar_inj _ [0] (digits10_lt n) (by norm_num) (by simpa using hrev)
    have := Nat.ofDigits_digits 10 n
    rw [h0] at this
    simp [Nat.ofDigits] at this
    exact hn this.symm
  · exfalso
    rw [hn, natStr_zero, natStr_data_of_ne_zero hm] at hd
    have hrev : (Nat.digits 10 m).map Nat.digitChar = ['0'] := by
      have := congrArg List.reverse hd
      simpa using this
    have h0 : Nat.digits 10 m = [0] :=
      mapDigitChar_inj _ [0] (digits10_lt m) (by norm_num) (by simpa using hrev)
    have := Nat.ofDigits_digits 10 m
    rw [h0] at this
    simp [Nat.ofDigits] at this
    exact hm this.symm
  · rw [natStr_data_of_ne_zero hm, natStr_data_of_ne_zero hn] at hd
    have hmap := List.reverse_injective hd
    have hdig := mapDigitChar_inj _ _ (digits10_lt m) (digits10_lt n) hmap
    have h1 := Nat.ofDigits_digits 10 m
    rw [hdig, Nat.ofDigits_digits] at h1
    exact h1.symm

theorem natStr_head {n : Nat} (h : n ≠ 0) :
    ∃ d t, (natStr n).data = Nat.digitChar d :: t ∧ d < 10 ∧ d ≠ 0 := by
  have hne : Nat.digits 10 n ≠ [] := Nat.digits_ne_nil_iff_ne_zero.mpr h
  refine ⟨(Nat.digits 10 n).getLast hne,
    ((Nat.digits 10 n).dropLast.map Nat.digitChar).reverse, ?_, ?_, ?_⟩
  · rw [natStr_data_of_ne_zero h]
    conv_lhs => rw [← List.dropLast_append_getLast hne]
    rw [List.map_append, List.reverse_append]
    simp
  · exact Nat.digits_lt_base (by norm_num) (List.getLast_mem hne)
  · exact Nat.getLast_digit_ne_zero 10 h

theorem pad2_lt10_data {n : Nat} (h : n < 10) : (pad2 n).data = '0' :: (natStr n).data := by
  simp only [pad2, if_pos h]
  simp [String.data_append]

theorem pad2_ge10 {n : Nat} (h : ¬ n < 10) : pad2 n = natStr n := by
  simp [pad2, h]

theorem pad2_inj {m n : Nat} (h : pad2 m = pad2 n) : m = n := by
  have hd := congrArg String.data h
  by_cases hm : m < 10 <;> by_cases hn : n < 10
  · rw [pad2_lt10_data hm, pad2_lt10_data hn] at hd
    have : (natStr m).data = (natStr n).data := by
      injection hd
    exact natStr_inj (String.ext this)
  · exfalso
    rw [pad2_lt10_data hm, pad2_ge10 hn] at hd
    have hn0 : n ≠ 0 := by omega
    obtain ⟨d, t, hdt, hle, hne0⟩ := natStr_head hn0
    rw [hdt] at hd
    have : '0' = Nat.digitChar d := by injection hd
    exact digitChar_ne_zero_char d hle hne0 this.symm
  · exfalso
    rw [pad2_lt10_data hn, pad2_ge10 hm] at hd
    have hm0 : m ≠ 0 := by omega
    obtain ⟨d, t, hdt, hle, hne0⟩ := natStr_head hm0
    rw [hdt] at hd
    have : Nat.digitChar d = '0' := by injection hd
    exact digitChar_ne_zero_char d hle hne0 this
  · rw [pad2_ge10 hm, pad2_ge10 hn] at h
    exact natStr_inj h

theorem fname_inj : Function.Injective fname := by
  intro i j h
  have hd := congrArg String.data h
  simp only [fname, String.data_append] at hd
  have := pad2_inj (String.ext (List.append_cancel_right hd))
  omega

theorem fname_map_nodup (i n : Nat) : ((List.range' i n).map fname).Nodup :=
  (List.nodup_range' i n).map fname_inj

/-! ### The download loop and the file-write model -/

theorem downloadLoop_filenames_sublist (dl : Nat → Bool) :
    ∀ (cards : List Card) (i : Nat),
      ((downloadLoop dl cards i).map (·.filename)).Sublist
        ((List.range' i cards.length).map fname)
  | [], i => by simp [downloadLoop]
  | c :: rest, i => by
    have ih := downloadLoop_filenames_sublist dl rest (i + 1)
    simp only [downloadLoop, List.length_cons, List.range'_succ, List.map_cons]
    cases hc : c.imageUrl with
    | none => exact ih.cons _
    | some url =>
      by_cases hd : dl i
      · simp only [if_pos hd, List.map_cons]
        exact ih.cons₂ _
      · simp only [if_neg hd]
        exact ih.cons _

theorem downloadLoop_filenames_nodup (dl : Nat → Bool) (cards : List Card) (i : Nat) :
    ((downloadLoop dl cards i).map (·.filename)).Nodup :=
  (downloadLoop_filenames_sublist dl cards i).nodup (fname_map_nodup i cards.length)

theorem writeFiles_of_disjoint :
    ∀ (files acc : List String), files.Nodup → (∀ f ∈ files, f ∉ acc) →
      writeFiles acc files = acc ++ files
  | [], acc, _, _ => by simp [writeFiles]
  | f :: rest, acc, hnd, hdis => by
    have step : writeFiles acc (f :: rest) = writeFiles (acc ++ [f]) rest := by
      simp only [writeFiles, List.foldl_cons, if_neg (hdis f (by simp))]
    rw [step, writeFiles_of_disjoint rest (acc ++ [f]) (List.Nodup.of_cons hnd)
      (fun g hg => by
        simp only [List.mem_append, List.mem_singleton, not_or]
        refine ⟨hdis g (by simp [hg]), ?_⟩
        rintro rfl
        exact (List.nodup_cons.mp hnd).1 hg)]
    simp

theorem writeFiles_nil (files : List String) (h : files.Nodup) :
    writeFiles [] files = files := by
  simpa using writeFiles_of_disjoint files [] h (by simp)

/-! ### The diversification selector -/

theorem diversifyPass1_eq (limit : Int) :
    ∀ (cards : List Card) (seen : List String) (acc : List Card),
      (acc.length : Int) < limit →
      diversifyPass1 seen acc limit cards =
        acc ++ (firstPerSet (cards.filter (fun x => x.setKey ∉ seen))).take
          (limit.toNat - acc.length)
  | [], seen, acc, h => by simp [diversifyPass1, firstPerSet]
  | c :: rest, seen, acc, h => by
    by_cases hs : c.setKey ∈ seen
    · have hfilter : (c :: rest).filter (fun x => x.setKey ∉ seen) =
          rest.filter (fun x => x.setKey ∉ seen) := by
        simp [List.filter_cons, hs]
      rw [hfilter]
      simp only [diversifyPass1, if_pos hs]
      exact diversifyPass1_eq limit rest seen acc h
    · have hfilter : (c :: rest).filter (fun x => x.setKey ∉ seen) =
          c :: rest.filter (fun x => x.setKey ∉ seen) := by
        simp [List.filter_cons, hs]
      rw [hfilter, firstPerSet]
      have hcomp : (rest.filter (fun x => x.setKey ∉ seen)).filter
          (fun x => x.setKey ≠ c.setKey) =
          rest.filter (fun x => x.setKey ∉ (c.setKey :: seen)) := by
        rw [List.filter_filter]
        apply List.filter_congr
        intro x _
        by_cases h1 : x.setKey ∈ seen <;> by_cases h2 : x.setKey = c.setKey <;>
          simp [h1, h2]
      rw [hcomp]
      simp only [diversifyPass1, if_neg hs]
      by_cases hlim : (((acc ++ [c]).length : Int) ≥ limit)
      · rw [if_pos hlim]
        have htake : limit.toNat - acc.length = 1 := by
          simp only [List.length_append, List.length_singleton] at hlim
          omega
        rw [htake]
        simp
      · rw [if_neg hlim]
        have hlt : (((acc ++ [c]).length : Int)) < limit := by omega
        rw [diversifyPass1_eq limit rest (c.setKey :: seen) (acc ++ [c]) hlt]
        have harith : limit.toNat - acc.length = (limit.toNat - (acc ++ [c]).length) + 1 := by
          simp only [List.length_append, List.length_singleton] at hlt ⊢
          omega
        rw [harith, List.take_succ_cons]
        simp

theorem diversifyPass2_eq (limit : Int) :
    ∀ (cards : List Card) (acc : List Card),
      (cards.map (·.id)).Nodup →
      (acc.length : Int) < limit →
      diversifyPass2 acc limit cards =
        acc ++ (cards.filter (fun c => c.id ∉ acc.map (·.id))).take
          (limit.toNat - acc.length)
  | [], acc, _, h => by simp [diversifyPass2]
  | c :: rest, acc, hnd, h => by
    have hndr : (rest.map (·.id)).Nodup := (List.nodup_cons.mp (by simpa using hnd)).2
    have hcnotr : c.id ∉ rest.map (·.id) := (List.nodup_cons.mp (by simpa using hnd)).1
    by_cases hmem : c.id ∈ acc.map (·.id)
    · have hany : acc.any (fun u => u.id = c.id) = true := by
        simp only [List.any_eq_true]
        obtain ⟨u, hu, hid⟩ := List.mem_map.mp hmem
        exact ⟨u, hu, by simp [hid]⟩
      have hfilter : (c :: rest).filter (fun x => x.id ∉ acc.map (·.id)) =
          rest.filter (fun x => x.id ∉ acc.map (·.id)) := by
        simp only [List.filter_cons]
        rw [if_neg (by simpa using hmem)]
      rw [hfilter]
      simp only [diversifyPass2, if_pos hany]
      exact diversifyPass2_eq limit rest acc hndr h
    · have hany : ¬ acc.any (fun u => u.id = c.id) = true := by
        simp only [List.any_eq_true]
        rintro ⟨u, hu, hid⟩
        exact hmem (List.mem_map.mpr ⟨u, hu, by simpa using hid⟩)
      have hfilter : (c :: rest).filter (fun x => x.id ∉ acc.map (·.id)) =
          c :: rest.filter (fun x => x.id ∉ acc.map (·.id)) := by
        simp only [List.filter_cons]
        rw [if_pos (by simpa using hmem)]
      rw [hfilter]
      simp only [diversifyPass2, if_neg hany]
      by_cases hlim : (((acc ++ [c]).length : Int) ≥ limit)
      · rw [if_pos hlim]
        have htake : limit.toNat - acc.length = 1 := by
          simp only [List.length_append, List.length_singleton] at hlim
          omega
        rw [htake]
        simp
      · rw [if_neg hlim]
        have hlt : (((acc ++ [c]).length : Int)) < limit := by omega
        rw [diversifyPass2_eq limit rest (acc ++ [c]) hndr hlt]
        have hfcong : rest.filter (fun x => x.id ∉ (acc ++ [c]).map (·.id)) =
            rest.filter (fun x => x.id ∉ acc.map (·.id)) := by
          apply List.filter_congr
          intro x hx
          have hxc : x.id ≠ c.id := by
            intro hcontra
            exact hcnotr (hcontra ▸ List.mem_map_of_mem (·.id) hx)
          by_cases h1 : x.id ∈ acc.map (·.id) <;> simp [h1, hxc]
        rw [hfcong]
        have harith : limit.toNat - acc.length = (limit.toNat - (acc ++ [c]).length) + 1 := by
          simp only [List.length_append, List.length_singleton] at hlt ⊢
          omega
        rw [harith, List.take_succ_cons]
        simp

theorem diversifyPass1_length_le (limit : Int) (cards : List Card) (seen : List String)
    (acc : List Card) (h : (acc.length : Int) < limit) :
    (diversifyPass1 seen acc limit cards).length ≤ limit.toNat := by
  rw [diversifyPass1_eq limit cards seen acc h]
  simp only [List.length_append, List.length_take]
  omega

theorem diversifyPass2_length_le_of_lt (limit : Int) :
    ∀ (cards acc : List Card), (acc.length : Int) < limit →
      (diversifyPass2 acc limit cards).length ≤ limit.toNat
  | [], acc, h => by
    simp only [diversifyPass2]
    omega
  | c :: rest, acc, h => by
    simp only [diversifyPass2]
    by_cases hany : acc.any (fun u => u.id = c.id) = true
    · rw [if_pos hany]
      exact diversifyPass2_length_le_of_lt limit rest acc h
    · rw [if_neg hany]
      by_cases hlim : (((acc ++ [c]).length : Int) ≥ limit)
      · rw [if_pos hlim]
        simp only [List.length_append, List.length_singleton]
        omega
      · rw [if_neg hlim]
        exact diversifyPass2_length_le_of_lt limit rest (acc ++ [c]) (by
          simp only [List.length_append, List.length_singleton] at hlim ⊢
          omega)

theorem diversifyPass1_nonpos (seen : List String) (c : Card) (rest : List Card)
    (limit : Int) (hs : c.setKey ∉ seen) (hl : limit ≤ 0) :
    diversifyPass1 seen [] limit (c :: rest) = [c] := by
  simp only [diversifyPass1, if_neg hs]
  rw [if_pos (by simp; omega)]
  simp

theorem select_nonpos (c : Card) (rest : List Card) (limit : Int) (hl : limit ≤ 0) :
    diversifyCards (c :: rest) limit = [c] ∧ fetchSelect (c :: rest) limit = [c] := by
  have h1 : diversifyPass1 [] [] limit (c :: rest) = [c] :=
    diversifyPass1_nonpos [] c rest limit (by simp) hl
  refine ⟨?_, h1⟩
  simp only [diversifyCards, h1]
  rw [if_neg (by simp; omega)]

/-! ## Claim theorems: the Diversification Selector -/

/-- **C2** counterexample: for five candidates all from one set and
`limit = 3`, the bulk-path `diversifyCards` returns 3 candidates but the
inline selection of `fetchPokemonCards` returns only 1 — the remote path has
no fallback pass, so the claim that both selectors implement the two-phase
algorithm (and both return 3 here) is false. -/
theorem fetchSelect_no_fallback_cex :
    (diversifyCards oneSet5 3).length = 3 ∧
    (∀ x ∈ diversifyCards oneSet5 3, x.setKey = "A") ∧
    (fetchSelect oneSet5 3).length = 1 ∧
    fetchSelect oneSet5 3 ≠ diversifyCards oneSet5 3 := by
  decide

/-- **C2** (amended): the two-phase selection — first one candidate per
not-yet-seen source set in input order up to `limit`, then a fallback pass
appending not-already-chosen candidates in original order up to `limit` —
is implemented by the bulk-path `diversifyCards` (for positive `limit` and
globally distinct candidate ids), while the inline selection of the remote
`fetchPokemonCards` performs only the first phase. -/
theorem diversify_two_phase (cards : List Card) (limit : Int)
    (hpos : 0 < limit) (hids : (cards.map (·.id)).Nodup) :
    diversifyCards cards limit = selectSpec cards limit ∧
    fetchSelect cards limit = (firstPerSet cards).take limit.toNat := by
  have hbase : diversifyPass1 [] [] limit cards = (firstPerSet cards).take limit.toNat := by
    have h := diversifyPass1_eq limit cards [] [] (by simpa using hpos)
    simpa using h
  refine ⟨?_, hbase⟩
  simp only [diversifyCards, selectSpec, fetchSelect, hbase]
  by_cases hlt : ((((firstPerSet cards).take limit.toNat).length : Int) < limit)
  · rw [if_pos hlt, if_pos hlt]
    rw [diversifyPass2_eq limit cards ((firstPerSet cards).take limit.toNat) hids hlt]
    rw [List.take_append_eq_append_take, List.take_take, min_self]
  · rw [if_neg hlt, if_neg hlt]

/-- Witness for C2's amended theorem at a concrete input. -/
theorem diversify_two_phase_witness :
    ((0 : Int) < 3 ∧ (oneSet5.map (·.id)).Nodup) ∧
    diversifyCards oneSet5 3 = selectSpec oneSet5 3 ∧
    fetchSelect oneSet5 3 = (firstPerSet oneSet5).take (3 : Int).toNat :=
  ⟨⟨by decide, by decide⟩, diversify_two_phase oneSet5 3 (by decide) (by decide)⟩

/-- **C10**: for a non-empty candidate list and `limit ≤ 0` both selectors
return exactly one candidate (the head), because the limit test runs only
after a candidate has been appended; in general the output length of either
selector on non-empty input is bounded by `max limit 1`, not by `limit`. -/
theorem selector_limit_edge (c : Card) (rest : List Card) (limit : Int) :
    (limit ≤ 0 →
      diversifyCards (c :: rest) limit = [c] ∧ fetchSelect (c :: rest) limit = [c]) ∧
    (diversifyCards (c :: rest) limit).length ≤ (max limit 1).toNat ∧
    (fetchSelect (c :: rest) limit).length ≤ (max limit 1).toNat := by
  by_cases hl : limit ≤ 0
  · have hsel := select_nonpos c rest limit hl
    refine ⟨fun _ => hsel, ?_, ?_⟩
    · rw [hsel.1]
      simp
    · rw [hsel.2]
      simp
  · have hpos : (0 : Int) < limit := by omega
    have hmax : (max limit 1).toNat = limit.toNat := by omega
    refine ⟨fun h => absurd h hl, ?_, ?_⟩
    · rw [hmax]
      simp only [diversifyCards]
      by_cases hlt : (((diversifyPass1 [] [] limit (c :: rest)).length : Int) < limit)
      · rw [if_pos hlt]
        exact diversifyPass2_length_le_of_lt limit (c :: rest) _ hlt
      · rw [if_neg hlt]
        exact diversifyPass1_length_le limit (c :: rest) [] [] (by simpa using hpos)
    · rw [hmax]
      exact diversifyPass1_length_le limit (c :: rest) [] [] (by simpa using hpos)

/-- Witness for C10 at a concrete input (`limit = 0`, non-empty list). -/
theorem selector_limit_edge_witness :
    ((0 : Int) ≤ 0) ∧
    diversifyCards oneSet5 0 = [mkCard "c1" "A"] ∧ fetchSelect oneSet5 0 = [mkCard "c1" "A"] :=
  ⟨le_refl 0,
   (selector_limit_edge (mkCard "c1" "A") [mkCard "c2" "A", mkCard "c3" "A", mkCard "c4" "A", mkCard "c5" "A"]
      0).1 (le_refl 0)⟩

/-! ### The per-key process -/

theorem keyState_set_dirExists (s : KeyState) (h : s.dirExists = true) :
    ({ s with dirExists := true } : KeyState) = s := by
  cases s
  simp_all

theorem downloadPokemonCards_skip (key : Nat) (opts : Options) (mode : Mode)
    (attempts : Nat → Except String (List Card)) (dl : Nat → Bool) (now : Nat)
    (s : KeyState) (hf : opts.force = false) (hm : s.metadata.isSome = true)
    (hp : 0 < s.pngs.length) :
    downloadPokemonCards key opts mode attempts dl now s =
      { state := { s with dirExists := true }, net := 0,
        result := Except.ok { skipped := true, count := s.pngs.length } } := by
  have hskip : skipTest opts ({ s with dirExists := true } : KeyState) = true := by
    simp [skipTest, hf, hm, hp]
  simp [downloadPokemonCards, hskip]

theorem finishDownload_fresh (key : Nat) (cards : List Card) (dl : Nat → Bool)
    (now : Nat) (s1 : KeyState) (net0 : Nat) (h : s1.pngs = []) :
    (finishDownload key cards dl now s1 net0).state.pngs =
      (downloadLoop dl cards 0).map (·.filename) ∧
    (finishDownload key cards dl now s1 net0).state.metadata =
      some { pokedexNumber := key, cards := downloadLoop dl cards 0,
             downloadedAt := now } := by
  constructor
  · simp only [finishDownload, h]
    exact writeFiles_nil _ (downloadLoop_filenames_nodup dl cards 0)
  · rfl

theorem downloadPokemonCards_shape (key : Nat) (opts : Options) (mode : Mode)
    (attempts : Nat → Except String (List Card)) (dl : Nat → Bool) (now : Nat)
    (s : KeyState)
    (hskip : skipTest opts ({ s with dirExists := true } : KeyState) = false) :
    (∃ reason n, downloadPokemonCards key opts mode attempts dl now s =
      { state := writeMarker ({ s with dirExists := true } : KeyState) reason, net := n,
        result := Except.ok { skipped := false, count := 0 } }) ∨
    (∃ e n, downloadPokemonCards key opts mode attempts dl now s =
      { state := writeMarker ({ s with dirExists := true } : KeyState)
          (EmptyReason.apiFailed e now),
        net := n, result := Except.error e }) ∨
    (∃ cards n, downloadPokemonCards key opts mode attempts dl now s =
      finishDownload key cards dl now ({ s with dirExists := true } : KeyState) n) := by
  simp only [downloadPokemonCards, hskip, Bool.false_eq_true, if_false]
  cases mode with
  | bulk lookup =>
    cases lookup with
    | none => exact Or.inl ⟨EmptyReason.noGithubCards now, 0, rfl⟩
    | some allCards =>
      by_cases h0 : allCards.length = 0
      · refine Or.inl ⟨EmptyReason.noGithubCards now, 0, ?_⟩
        simp only [if_pos h0]
      · refine Or.inr (Or.inr ⟨diversifyCards allCards opts.limit, 0, ?_⟩)
        simp only [if_neg h0]
  | remote =>
    cases hr : retryWithBackoff attempts with
    | error e =>
      refine Or.inr (Or.inl ⟨e, retryCount attempts 1 2, ?_⟩)
      simp only [hr]
    | ok raw =>
      by_cases h0 : (fetchSelect raw opts.limit).length = 0
      · refine Or.inl ⟨EmptyReason.noCards now, retryCount attempts 1 2, ?_⟩
        simp only [hr, if_pos h0]
      · refine Or.inr (Or.inr ⟨fetchSelect raw opts.limit, retryCount attempts 1 2, ?_⟩)
        simp only [hr, if_neg h0]

theorem downloadPokemonCards_success_complete (key : Nat) (opts : Options)
    (mode : Mode) (attempts : Nat → Except String (List Card)) (dl : Nat → Bool)
    (now : Nat) (s : KeyState) (hp : s.pngs = []) (cnt : Nat) (hcnt : 0 < cnt)
    (hres : (downloadPokemonCards key opts mode attempts dl now s).result =
      Except.ok { skipped := false, count := cnt }) :
    (downloadPokemonCards key opts mode attempts dl now s).state.metadata.isSome = true ∧
    (downloadPokemonCards key opts mode attempts dl now s).state.pngs.length = cnt ∧
    (downloadPokemonCards key opts mode attempts dl now s).state.dirExists = true := by
  have hskip : skipTest opts ({ s with dirExists := true } : KeyState) = false := by
    simp [skipTest, hp]
  rcases downloadPokemonCards_shape key opts mode attempts dl now s hskip with
    ⟨reason, n, heq⟩ | ⟨e, n, heq⟩ | ⟨cards, n, heq⟩
  · rw [heq] at hres
    simp at hres
    omega
  · rw [heq] at hres
    simp at hres
  · have hfr := finishDownload_fresh key cards dl now
      ({ s with dirExists := true } : KeyState) n (by simpa using hp)
    rw [heq] at hres ⊢
    have hlen : (downloadLoop dl cards 0).length = cnt := by
      simp only [finishDownload] at hres
      simpa using hres
    refine ⟨by simp [hfr.2], ?_, by simp [finishDownload]⟩
    rw [hfr.1, List.length_map, hlen]

/-! ## Claim theorems: the per-key process -/

/-- **C1**: for a key whose cache state is complete (metadata present and at
least one image file on disk), an unforced `process` call returns
`{skipped:true, count:fileCount}`, performs no network I/O, and leaves the
state unchanged — so a second unforced call behaves identically; moreover,
starting from a key with no image files, if an unforced call succeeds with a
positive count then the second unforced call performs no network I/O and
returns `{skipped:true}` with the same count. -/
theorem process_idempotent (key : Nat) (opts : Options) (mode mode2 : Mode)
    (attempts attempts2 : Nat → Except String (List Card)) (dl dl2 : Nat → Bool)
    (now now2 : Nat) (s : KeyState) (hf : opts.force = false) :
    (s.metadata.isSome = true → 0 < s.pngs.length →
      downloadPokemonCards key opts mode attempts dl now s =
        { state := { s with dirExists := true }, net := 0,
          result := Except.ok { skipped := true, count := s.pngs.length } }) ∧
    (∀ cnt, s.pngs = [] → 0 < cnt →
      (downloadPokemonCards key opts mode attempts dl now s).result =
        Except.ok { skipped := false, count := cnt } →
      downloadPokemonCards key opts mode2 attempts2 dl2 now2
          (downloadPokemonCards key opts mode attempts dl now s).state =
        { state := (downloadPokemonCards key opts mode attempts dl now s).state,
          net := 0,
          result := Except.ok { skipped := true, count := cnt } }) := by
  constructor
  · intro hm hp
    exact downloadPokemonCards_skip key opts mode attempts dl now s hf hm hp
  · intro cnt hp hcnt hres
    obtain ⟨hmeta, hlen, hdir⟩ :=
      downloadPokemonCards_success_complete key opts mode attempts dl now s hp cnt hcnt hres
    have hskip2 := downloadPokemonCards_skip key opts mode2 attempts2 dl2 now2
      (downloadPokemonCards key opts mode attempts dl now s).state hf hmeta (by omega)
    rw [hskip2, keyState_set_dirExists _ hdir, hlen]

/-- Witness for C1: a complete key is skipped with its file count, and a
fresh key that downloads two cards is skipped with count 2 on the rerun. -/
theorem process_idempotent_witness :
    (completeKS.metadata.isSome = true ∧ 0 < completeKS.pngs.length ∧
      downloadPokemonCards 1 defOpts Mode.remote failFetch (fun _ => true) 9 completeKS =
        { state := { completeKS with dirExists := true }, net := 0,
          result := Except.ok { skipped := true, count := completeKS.pngs.length } }) ∧
    downloadPokemonCards 1 defOpts Mode.remote okFetch (fun _ => true) 9
        (downloadPokemonCards 1 defOpts (Mode.bulk (some twoCards)) failFetch
          (fun _ => true) 5 freshKS).state =
      { state := (downloadPokemonCards 1 defOpts (Mode.bulk (some twoCards)) failFetch
          (fun _ => true) 5 freshKS).state,
        net := 0, result := Except.ok { skipped := true, count := 2 } } :=
  ⟨⟨by decide, by decide,
    (process_idempotent 1 defOpts Mode.remote Mode.remote failFetch failFetch
      (fun _ => true) (fun _ => true) 9 9 completeKS rfl).1 (by decide) (by decide)⟩,
   (process_idempotent 1 defOpts (Mode.bulk (some twoCards)) Mode.remote failFetch okFetch
      (fun _ => true) (fun _ => true) 5 9 freshKS rfl).2 2 rfl (by decide) (by decide)⟩

/-- **C5** counterexample: starting from a fresh key, a failed attempt writes
the `.empty` marker; a later successful run writes `metadata.json` but never
removes the marker, so the key ends up with both — the claimed mutual
exclusion of completion states is violated by this two-call sequence. -/
theorem marker_metadata_coexist_cex :
    failedOnceKS.emptyMarker.isSome = true ∧ failedOnceKS.metadata.isSome = false ∧
    recoveredOut.state.metadata.isSome = true ∧
    recoveredOut.state.emptyMarker.isSome = true ∧
    recoveredOut.result = Except.ok { skipped := false, count := 2 } := by
  decide

/-- **C5** (amended): `process` never removes an `.empty` marker — whatever
branch it takes, a key that had the marker before the call still has one
after it; hence metadata and marker can coexist after a failure followed by
a success, and the analyzer resolves the conflict in favour of the files and
metadata. -/
theorem process_preserves_marker (key : Nat) (opts : Options) (mode : Mode)
    (attempts : Nat → Except String (List Card)) (dl : Nat → Bool) (now : Nat)
    (s : KeyState) (h : s.emptyMarker.isSome = true) :
    (downloadPokemonCards key opts mode attempts dl now s).state.emptyMarker.isSome = true := by
  by_cases hskip : skipTest opts ({ s with dirExists := true } : KeyState) = true
  · simp [downloadPokemonCards, hskip, h]
  · rcases downloadPokemonCards_shape key opts mode attempts dl now s
      (Bool.not_eq_true _ ▸ hskip) with
      ⟨reason, n, heq⟩ | ⟨e, n, heq⟩ | ⟨cards, n, heq⟩ <;>
      rw [heq] <;> simp [writeMarker, finishDownload, h]

/-- Witness for C5's amended theorem: a marked key stays marked through a
successful forced re-download. -/
theorem process_preserves_marker_witness :
    brokenMarkedKS.emptyMarker.isSome = true ∧
    (downloadPokemonCards 3 forceOpts (Mode.bulk (some twoCards)) failFetch
      (fun _ => true) 8 brokenMarkedKS).state.emptyMarker.isSome = true :=
  ⟨by decide,
   process_preserves_marker 3 forceOpts (Mode.bulk (some twoCards)) failFetch
     (fun _ => true) 8 brokenMarkedKS (by decide)⟩

/-- **C4** counterexample: a forced re-run on a key holding three images
downloads a single card; `metadata.json` then records 1 card while 3 image
files remain on disk — the write path deletes no stale blobs, so the claimed
`cards.length = files on disk` invariant is broken by exactly the forced
fewer-images scenario the claim includes. -/
theorem metadata_count_invariant_cex :
    threeCardKS.pngs.length = 3 ∧
    (forcedFewerOut.state.metadata.map (·.cards.length)) = some 1 ∧
    forcedFewerOut.state.pngs.length = 3 ∧
    forcedFewerOut.result = Except.ok { skipped := false, count := 1 } := by
  decide

/-- **C4** (amended): the invariant holds for the state `process` builds in a
directory that had no image files and no metadata record: whenever the
resulting state carries a metadata record, its `cards.length` equals the
number of image files on disk.  (Stale files from earlier runs are never
deleted, so the invariant can fail when the directory was not fresh.) -/
theorem metadata_count_invariant_fresh (key : Nat) (opts : Options) (mode : Mode)
    (attempts : Nat → Except String (List Card)) (dl : Nat → Bool) (now : Nat)
    (s : KeyState) (hp : s.pngs = []) (hm : s.metadata = none) :
    ∀ m, (downloadPokemonCards key opts mode attempts dl now s).state.metadata = some m →
      m.cards.length =
        (downloadPokemonCards key opts mode attempts dl now s).state.pngs.length := by
  intro m hmeta
  have hskip : skipTest opts ({ s with dirExists := true } : KeyState) = false := by
    simp [skipTest, hp]
  rcases downloadPokemonCards_shape key opts mode attempts dl now s hskip with
    ⟨reason, n, heq⟩ | ⟨e, n, heq⟩ | ⟨cards, n, heq⟩
  · rw [heq] at hmeta
    simp [writeMarker, hm] at hmeta
  · rw [heq] at hmeta
    simp [writeMarker, hm] at hmeta
  · have hfr := finishDownload_fresh key cards dl now
      ({ s with dirExists := true } : KeyState) n (by simpa using hp)
    rw [heq] at hmeta ⊢
    rw [hfr.2] at hmeta
    rw [hfr.1]
    simp only [Option.some.injEq] at hmeta
    rw [← hmeta, List.length_map]

/-- Witness for C4's amended theorem: a fresh key downloading two cards ends
with 2 metadata entries and 2 files. -/
theorem metadata_count_invariant_fresh_witness :
    freshKS.pngs = [] ∧ freshKS.metadata = none ∧
    (downloadPokemonCards 1 defOpts (Mode.bulk (some twoCards)) failFetch
        (fun _ => true) 5 freshKS).state.metadata =
      some { pokedexNumber := 1, cards := downloadLoop (fun _ => true) twoCards 0,
             downloadedAt := 5 } ∧
    (downloadLoop (fun _ => true) twoCards 0).length =
      (downloadPokemonCards 1 defOpts (Mode.bulk (some twoCards)) failFetch
        (fun _ => true) 5 freshKS).state.pngs.length :=
  ⟨rfl, rfl, by decide,
   metadata_count_invariant_fresh 1 defOpts (Mode.bulk (some twoCards)) failFetch
     (fun _ => true) 5 freshKS rfl rfl
     { pokedexNumber := 1, cards := downloadLoop (fun _ => true) twoCards 0,
       downloadedAt := 5 } (by decide)⟩

/-- **C8** counterexample: two chosen candidates, the first image download
fails and the second succeeds; the single recorded card bears filename
`"02.png"`, not `"01.png"` — ordinals follow the candidate position, so a
failed candidate leaves a gap instead of the claimed consecutive numbering. -/
theorem filenames_gap_cex :
    (gapOut.state.metadata.map (fun m => m.cards.map (·.filename))) = some ["02.png"] ∧
    (gapOut.state.metadata.map (fun m => m.cards.map (·.filename))) ≠ some ["01.png"] ∧
    gapOut.result = Except.ok { skipped := false, count := 1 } := by
  decide

theorem downloadLoop_all_success (dl : Nat → Bool) :
    ∀ (cards : List Card) (i : Nat),
      (∀ c ∈ cards, c.imageUrl.isSome = true) → (∀ j, dl j = true) →
      (downloadLoop dl cards i).map (·.filename) = (List.range' i cards.length).map fname
  | [], i, _, _ => by simp [downloadLoop]
  | c :: rest, i, hurl, hdl => by
    obtain ⟨url, hu⟩ := Option.isSome_iff_exists.mp (hurl c (by simp))
    simp only [downloadLoop, hu, hdl i, if_pos, List.length_cons, List.range'_succ,
      List.map_cons]
    rw [downloadLoop_all_success dl rest (i + 1) (fun x hx => hurl x (by simp [hx])) hdl]

/-- **C8** (amended): the candidate at 0-based index `i` is assigned the
ordinal filename `String(i+1).padStart(2,'0') + ".png"`; the recorded
filenames are always an in-order selection of those ordinals, and they are
exactly the consecutive ordinals `01.png … N.png` when every chosen
candidate has an image URL and every download succeeds — a failed or
URL-less candidate is omitted and its ordinal is not reassigned, leaving a
gap. -/
theorem filenames_ordinal (dl : Nat → Bool) (cards : List Card) (key now : Nat)
    (s1 : KeyState) (net0 : Nat) :
    (finishDownload key cards dl now s1 net0).state.metadata =
      some { pokedexNumber := key, cards := downloadLoop dl cards 0,
             downloadedAt := now } ∧
    ((downloadLoop dl cards 0).map (·.filename)).Sublist
      ((List.range cards.length).map fname) ∧
    ((∀ c ∈ cards, c.imageUrl.isSome = true) → (∀ j, dl j = true) →
      (downloadLoop dl cards 0).map (·.filename) = (List.range cards.length).map fname) := by
  rw [List.range_eq_range']
  exact ⟨rfl, downloadLoop_filenames_sublist dl cards 0,
    fun h1 h2 => downloadLoop_all_success dl cards 0 h1 h2⟩

/-- Witness for C8's amended theorem: with both downloads succeeding the
recorded filenames are exactly `["01.png", "02.png"]`. -/
theorem filenames_ordinal_witness :
    (downloadLoop (fun _ => true) twoCards 0).map (·.filename) =
      (List.range twoCards.length).map fname :=
  (filenames_ordinal (fun _ => true) twoCards 1 5 freshKS 0).2.2
    (by decide) (fun _ => rfl)

/-! ## Claim theorems: the Analyzer -/

/-- **C3** counterexample: a directory holding image files and an `.empty`
marker but no metadata is classified `incomplete` by the analyzer, while the
claimed priority order (empty-marker checked before incomplete) would
classify it `empty`; the analyzer therefore does not implement the claimed
rule. -/
theorem analyzer_priority_cex :
    classifyKey brokenMarkedKS = KeyClass.incomplete ∧
    classifySpec brokenMarkedKS = KeyClass.empty ∧
    classifyKey brokenMarkedKS ≠ classifySpec brokenMarkedKS ∧
    (analyzeCache (fun _ => brokenMarkedKS) 3 3).incomplete = [3] ∧
    (analyzeCache (fun _ => brokenMarkedKS) 3 3).empty = [] := by
  decide

/-- **C3** (amended): the analyzer classifies each key by the priority order
metadata-with-files → complete, files-without-metadata → incomplete (even
when an `.empty` marker is also present), marker → empty, otherwise missing. -/
theorem analyzer_classification (s : KeyState) : classifyKey s = classifyAmended s := by
  rcases s with ⟨de, pngs, md, em⟩
  cases de <;> cases md <;> cases em <;> cases pngs <;>
    simp [classifyKey, classifyAmended, checkPokemonDownloaded, fileCountFS,
      hasMetadataFS, hasMarkerFS]

/-! ## Claim theorems: error contract of the process -/

theorem retryWithBackoff_error_iff (f : Nat → Except String (List Card)) (e : String) :
    retryWithBackoff f = Except.error e ↔
      ((∃ e1, f 1 = Except.error e1) ∧ (∃ e2, f 2 = Except.error e2) ∧
        f 3 = Except.error e) := by
  show retryRun f 1 2 = Except.error e ↔ _
  cases h1 : f 1 <;> cases h2 : f 2 <;> cases h3 : f 3 <;>
    simp [retryRun, h1, h2, h3]

theorem skipTest_update (opts : Options) (s : KeyState) :
    skipTest opts ({ s with dirExists := true } : KeyState) = skipTest opts s := rfl

theorem downloadPokemonCards_skipped (key : Nat) (opts : Options) (mode : Mode)
    (attempts : Nat → Except String (List Card)) (dl : Nat → Bool) (now : Nat)
    (s : KeyState) (hskip : skipTest opts s = true) :
    downloadPokemonCards key opts mode attempts dl now s =
      { state := { s with dirExists := true }, net := 0,
        result := Except.ok { skipped := true, count := s.pngs.length } } := by
  have h1 : skipTest opts ({ s with dirExists := true } : KeyState) = true := by
    rw [skipTest_update, hskip]
  simp [downloadPokemonCards, h1]

theorem dpc_remote_error (key : Nat) (opts : Options)
    (attempts : Nat → Except String (List Card)) (dl : Nat → Bool) (now : Nat)
    (s : KeyState) (e : String) (hskip : skipTest opts s = false)
    (hr : retryWithBackoff attempts = Except.error e) :
    downloadPokemonCards key opts Mode.remote attempts dl now s =
      { state := writeMarker ({ s with dirExists := true } : KeyState)
          (EmptyReason.apiFailed e now),
        net := retryCount attempts 1 2, result := Except.error e } := by
  have hcond : ¬ (skipTest opts ({ s with dirExists := true } : KeyState) = true) := by
    rw [skipTest_update, hskip]
    simp
  simp [downloadPokemonCards, if_neg hcond, hr]

theorem dpc_remote_ok (key : Nat) (opts : Options)
    (attempts : Nat → Except String (List Card)) (dl : Nat → Bool) (now : Nat)
    (s : KeyState) (raw : List Card) (hskip : skipTest opts s = false)
    (hr : retryWithBackoff attempts = Except.ok raw) :
    downloadPokemonCards key opts Mode.remote attempts dl now s =
      (if (fetchSelect raw opts.limit).length = 0 then
        { state := writeMarker ({ s with dirExists := true } : KeyState)
            (EmptyReason.noCards now),
          net := retryCount attempts 1 2,
          result := Except.ok { skipped := false, count := 0 } }
      else finishDownload key (fetchSelect raw opts.limit) dl now
        ({ s with dirExists := true } : KeyState) (retryCount attempts 1 2)) := by
  have hcond : ¬ (skipTest opts ({ s with dirExists := true } : KeyState) = true) := by
    rw [skipTest_update, hskip]
    simp
  simp [downloadPokemonCards, if_neg hcond, hr]

theorem dpc_bulk_none (key : Nat) (opts : Options)
    (attempts : Nat → Except String (List Card)) (dl : Nat → Bool) (now : Nat)
    (s : KeyState) (hskip : skipTest opts s = false) :
    downloadPokemonCards key opts (Mode.bulk none) attempts dl now s =
      { state := writeMarker ({ s with dirExists := true } : KeyState)
          (EmptyReason.noGithubCards now),
        net := 0, result := Except.ok { skipped := false, count := 0 } } := by
  have hcond : ¬ (skipTest opts ({ s with dirExists := true } : KeyState) = true) := by
    rw [skipTest_update, hskip]
    simp
  simp [downloadPokemonCards, if_neg hcond]

theorem dpc_bulk_some (key : Nat) (opts : Options)
    (attempts : Nat → Except String (List Card)) (dl : Nat → Bool) (now : Nat)
    (s : KeyState) (allCards : List Card) (hskip : skipTest opts s = false) :
    downloadPokemonCards key opts (Mode.bulk (some allCards)) attempts dl now s =
      (if allCards.length = 0 then
        { state := writeMarker ({ s with dirExists := true } : KeyState)
            (EmptyReason.noGithubCards now),
          net := 0, result := Except.ok { skipped := false, count := 0 } }
      else finishDownload key (diversifyCards allCards opts.limit) dl now
        ({ s with dirExists := true } : KeyState) 0) := by
  have hcond : ¬ (skipTest opts ({ s with dirExists := true } : KeyState) = true) := by
    rw [skipTest_update, hskip]
    simp
  simp [downloadPokemonCards, if_neg hcond]

theorem finishDownload_result (key : Nat) (cards : List Card) (dl : Nat → Bool)
    (now : Nat) (s1 : KeyState) (net0 : Nat) :
    (finishDownload key cards dl now s1 net0).result =
      Except.ok { skipped := false, count := (downloadLoop dl cards 0).length } := rfl

/-- **C6**: `process` signals an error to its caller exactly when it takes
the remote path, is not skipped, and all three fetch attempts fail; in that
case the `.empty` marker holding the propagated failure reason has been
written before the error is re-signalled.  A successful fetch whose
selection is empty writes a "no cards" marker and returns
`{skipped:false, count:0}` without error, and the bulk path's missing or
empty lookup likewise writes a marker and returns `{skipped:false, count:0}`. -/
theorem process_error_contract (key : Nat) (opts : Options) (mode : Mode)
    (attempts : Nat → Except String (List Card)) (dl : Nat → Bool) (now : Nat)
    (s : KeyState) :
    ((∃ e, (downloadPokemonCards key opts mode attempts dl now s).result =
        Except.error e) ↔
      (mode = Mode.remote ∧ skipTest opts s = false ∧
        (∃ e1, attempts 1 = Except.error e1) ∧ (∃ e2, attempts 2 = Except.error e2) ∧
        (∃ e3, attempts 3 = Except.error e3))) ∧
    (∀ e, (downloadPokemonCards key opts mode attempts dl now s).result =
        Except.error e →
      (downloadPokemonCards key opts mode attempts dl now s).state.emptyMarker =
        some (EmptyReason.apiFailed e now)) ∧
    (mode = Mode.remote → skipTest opts s = false →
      ∀ raw, retryWithBackoff attempts = Except.ok raw →
        (fetchSelect raw opts.limit).length = 0 →
        (downloadPokemonCards key opts mode attempts dl now s).result =
          Except.ok { skipped := false, count := 0 } ∧
        (downloadPokemonCards key opts mode attempts dl now s).state.emptyMarker =
          some (EmptyReason.noCards now)) ∧
    (∀ lookup, mode = Mode.bulk lookup → skipTest opts s = false →
      (lookup = none ∨ lookup = some []) →
      (downloadPokemonCards key opts mode attempts dl now s).result =
        Except.ok { skipped := false, count := 0 } ∧
      (downloadPokemonCards key opts mode attempts dl now s).state.emptyMarker =
        some (EmptyReason.noGithubCards now)) := by
  by_cases hskip : skipTest opts s = true
  · have heq := downloadPokemonCards_skipped key opts mode attempts dl now s hskip
    rw [heq]
    refine ⟨?_, by simp, ?_, ?_⟩
    · simp [hskip]
    · intro _ hfalse
      rw [hskip] at hfalse
      cases hfalse
    · intro _ _ hfalse
      rw [hskip] at hfalse
      cases hfalse
  · have hskipf : skipTest opts s = false := by
      cases h : skipTest opts s
      · rfl
      · exact absurd h hskip
    cases mode with
    | remote =>
      cases hr : retryWithBackoff attempts with
      | error e =>
        have heq := dpc_remote_error key opts attempts dl now s e hskipf hr
        rw [heq]
        obtain ⟨h1, h2, h3⟩ := (retryWithBackoff_error_iff attempts e).mp hr
        refine ⟨?_, ?_, ?_, ?_⟩
        · constructor
          · rintro ⟨e', he'⟩
            exact ⟨rfl, hskipf, h1, h2, ⟨e, h3⟩⟩
          · rintro -
            exact ⟨e, rfl⟩
        · intro e' he'
          have h4 : Except.error (ε := String) (α := DlResult) e = Except.error e' := he'
          injection h4 with h5
          rw [← h5]
          rfl
        · intro _ _ raw hraw
          exact absurd hraw (by simp)
        · intro lk hlk
          cases hlk
      | ok raw =>
        have heq := dpc_remote_ok key opts attempts dl now s raw hskipf hr
        have hnoerr : ∀ e3 : String, (∃ e1, attempts 1 = Except.error e1) →
            (∃ e2, attempts 2 = Except.error e2) → attempts 3 = Except.error e3 → False := by
          intro e3 g1 g2 g3
          have := (retryWithBackoff_error_iff attempts e3).mpr ⟨g1, g2, g3⟩
          rw [hr] at this
          cases this
        by_cases h0 : (fetchSelect raw opts.limit).length = 0
        · rw [if_pos h0] at heq
          rw [heq]
          refine ⟨?_, by simp, ?_, ?_⟩
          · constructor
            · rintro ⟨e', he'⟩
              cases he'
            · rintro ⟨-, -, g1, g2, e3, g3⟩
              exact (hnoerr e3 g1 g2 g3).elim
          · intro _ _ raw' hraw' h0'
            exact ⟨rfl, rfl⟩
          · intro lk hlk
            cases hlk
        · rw [if_neg h0] at heq
          rw [heq]
          refine ⟨?_, ?_, ?_, ?_⟩
          · constructor
            · rintro ⟨e', he'⟩
              rw [finishDownload_result] at he'
              cases he'
            · rintro ⟨-, -, g1, g2, e3, g3⟩
              exact (hnoerr e3 g1 g2 g3).elim
          · intro e' he'
            rw [finishDownload_result] at he'
            cases he'
          · intro _ _ raw' hraw' h0'
            have h4 : Except.ok (ε := String) raw = Except.ok raw' := hraw'
            injection h4 with h5
            rw [← h5] at h0'
            exact absurd h0' h0
          · intro lk hlk
            cases hlk
    | bulk lookup =>
      have hok : ∀ e, (downloadPokemonCards key opts (Mode.bulk lookup) attempts dl now s).result =
          Except.error e → False := by
        intro e he
        cases lookup with
        | none =>
          rw [dpc_bulk_none key opts attempts dl now s hskipf] at he
          cases he
        | some allCards =>
          rw [dpc_bulk_some key opts attempts dl now s allCards hskipf] at he
          by_cases h0 : allCards.length = 0
          · rw [if_pos h0] at he
            cases he
          · rw [if_neg h0] at he
            rw [finishDownload_result] at he
            cases he
      refine ⟨?_, ?_, ?_, ?_⟩
      · constructor
        · rintro ⟨e, he⟩
          exact (hok e he).elim
        · rintro ⟨hmode, -⟩
          cases hmode
      · intro e he
        exact (hok e he).elim
      · intro hmode
        cases hmode
      · intro lk hlk hsk hcase
        injection hlk with h5
        subst h5
        rcases hcase with rfl | rfl
        · rw [dpc_bulk_none key opts attempts dl now s hskipf]
          exact ⟨rfl, rfl⟩
        · rw [dpc_bulk_some key opts attempts dl now s [] hskipf]
          exact ⟨rfl, rfl⟩

/-- Witness for C6: with every attempt failing, the process errors after
writing the failure marker; with a successful fetch of zero candidates it
writes the "no cards" marker and returns a count of zero without error. -/
theorem process_error_contract_witness :
    ((∃ e, (downloadPokemonCards 2 defOpts Mode.remote failFetch (fun _ => true) 4
        freshKS).result = Except.error e) ∧
      (downloadPokemonCards 2 defOpts Mode.remote failFetch (fun _ => true) 4
        freshKS).state.emptyMarker = some (EmptyReason.apiFailed "HTTP 504" 4)) ∧
    ((downloadPokemonCards 2 defOpts Mode.remote (fun _ => Except.ok [])
        (fun _ => true) 4 freshKS).result =
      Except.ok { skipped := false, count := 0 } ∧
      (downloadPokemonCards 2 defOpts Mode.remote (fun _ => Except.ok [])
        (fun _ => true) 4 freshKS).state.emptyMarker =
        some (EmptyReason.noCards 4)) := by
  have h1 := process_error_contract 2 defOpts Mode.remote failFetch (fun _ => true) 4 freshKS
  have h2 := process_error_contract 2 defOpts Mode.remote (fun _ => Except.ok [])
    (fun _ => true) 4 freshKS
  refine ⟨⟨?_, ?_⟩, ?_⟩
  · exact h1.1.mpr ⟨rfl, by decide, ⟨"HTTP 504", rfl⟩, ⟨"HTTP 504", rfl⟩, ⟨"HTTP 504", rfl⟩⟩
  · exact h1.2.1 "HTTP 504" (by decide)
  · exact h2.2.2.1 rfl (by decide) [] rfl rfl

/-! ## Claim theorems: the Analyzer partition -/

theorem analyzePush_count (σ : Nat → KeyState) (k : Nat) (a : Analysis) (i : Nat) :
    ((analyzePush σ a i).complete.map Prod.fst).count k +
      (analyzePush σ a i).incomplete.count k + (analyzePush σ a i).empty.count k +
      (analyzePush σ a i).missing.count k =
    ((a.complete.map Prod.fst).count k + a.incomplete.count k + a.empty.count k +
      a.missing.count k) + (if i = k then 1 else 0) := by
  simp only [analyzePush]
  cases h : classifyKey (σ i) <;>
    simp [List.count_append, List.count_cons, List.count_nil] <;>
    by_cases hik : i = k <;> simp [hik] <;> omega

theorem analyzePush_total (σ : Nat → KeyState) (a : Analysis) (i : Nat) :
    (analyzePush σ a i).total = a.total + 1 := by
  simp only [analyzePush]
  cases h : classifyKey (σ i) <;> rfl

theorem analyzeFold_count (σ : Nat → KeyState) (k : Nat) :
    ∀ (keys : List Nat) (a : Analysis),
      (((keys.foldl (analyzePush σ) a).complete.map Prod.fst).count k +
        (keys.foldl (analyzePush σ) a).incomplete.count k +
        (keys.foldl (analyzePush σ) a).empty.count k +
        (keys.foldl (analyzePush σ) a).missing.count k) =
      ((a.complete.map Prod.fst).count k + a.incomplete.count k + a.empty.count k +
        a.missing.count k) + keys.count k
  | [], a => by simp
  | i :: rest, a => by
    rw [List.foldl_cons]
    rw [analyzeFold_count σ k rest (analyzePush σ a i), analyzePush_count]
    rw [List.count_cons]
    by_cases hik : i = k <;> simp [hik] <;> omega

theorem analyzeFold_total (σ : Nat → KeyState) :
    ∀ (keys : List Nat) (a : Analysis),
      (keys.foldl (analyzePush σ) a).total = a.total + keys.length
  | [], a => by simp
  | i :: rest, a => by
    rw [List.foldl_cons, analyzeFold_total σ rest (analyzePush σ a i), analyzePush_total]
    simp
    omega

/-- **C7**: the four lists produced by the analyzer partition the range:
every key of the range appears exactly once across
`complete ∪ incomplete ∪ empty ∪ missing`, keys outside the range appear in
none of them, and the total equals the size of the range.  (`analyzeCache`
is a pure function of the cache states — it performs no network access and
no mutation.) -/
theorem analyze_partition (σ : Nat → KeyState) (start stop k : Nat) :
    (((analyzeCache σ start stop).complete.map Prod.fst).count k +
      (analyzeCache σ start stop).incomplete.count k +
      (analyzeCache σ start stop).empty.count k +
      (analyzeCache σ start stop).missing.count k) =
      (if k ∈ rangeKeys start stop then 1 else 0) ∧
    (analyzeCache σ start stop).total = (rangeKeys start stop).length := by
  constructor
  · rw [show analyzeCache σ start stop =
      (rangeKeys start stop).foldl (analyzePush σ) ⟨[], [], [], [], 0⟩ from rfl]
    rw [analyzeFold_count]
    simp only [List.map_nil, List.count_nil, Nat.zero_add]
    have hnd : (rangeKeys start stop).Nodup := by
      rw [show rangeKeys start stop = List.range' start (stop + 1 - start) from rfl]
      exact List.nodup_range' _ _
    by_cases hmem : k ∈ rangeKeys start stop
    · rw [if_pos hmem, List.count_eq_one_of_mem hnd hmem]
    · rw [if_neg hmem, List.count_eq_zero_of_not_mem hmem]
  · rw [show analyzeCache σ start stop =
      (rangeKeys start stop).foldl (analyzePush σ) ⟨[], [], [], [], 0⟩ from rfl]
    rw [analyzeFold_total]
    simp

/-! ## Claim theorems: the Range Scheduler's global-metadata bump -/

/-- **C9** counterexample: `downloadMissing` over a range whose every key is
already complete computes an empty target list and returns before touching
the global metadata — the file is neither created nor re-saved, refuting the
claimed unconditional timestamp bump. -/
theorem global_bump_cex :
    toDownloadList (analyzeCache allCompleteWorld.keys 1 3) false = [] ∧
    (downloadMissing (fun _ => Mode.remote) (fun _ _ => Except.error "HTTP 504")
      (fun _ _ => true) defOpts false 1 3 5 allCompleteWorld).1.global = none ∧
    (downloadMissing (fun _ => Mode.remote) (fun _ _ => Except.error "HTTP 504")
      (fun _ _ => true) defOpts false 1 3 5 allCompleteWorld).1.global ≠
      some (saveMetadata (loadMetadata allCompleteWorld.global) 5) := by
  decide

/-- **C9** (amended): `downloadRange` ends every run by loading and
re-saving the global metadata with the fresh timestamp, unconditionally;
`downloadMissing` does so only when its computed target list is nonempty —
with an empty target list it returns early and leaves the world untouched. -/
theorem scheduler_metadata_bump (modeOf : Nat → Mode)
    (attemptsOf : Nat → Nat → Except String (List Card)) (dlOf : Nat → Nat → Bool)
    (opts : Options) (retryFailed : Bool) (start stop now : Nat) (w : World) :
    (downloadRange modeOf attemptsOf dlOf opts start stop now w).1.global =
      some (saveMetadata (loadMetadata w.global) now) ∧
    (toDownloadList (analyzeCache w.keys start stop) retryFailed ≠ [] →
      (downloadMissing modeOf attemptsOf dlOf opts retryFailed start stop now w).1.global =
        some (saveMetadata (loadMetadata w.global) now)) ∧
    (toDownloadList (analyzeCache w.keys start stop) retryFailed = [] →
      (downloadMissing modeOf attemptsOf dlOf opts retryFailed start stop now w).1 = w) := by
  refine ⟨?_, ?_, ?_⟩
  · rcases h : runKeys modeOf attemptsOf dlOf opts now (rangeKeys start stop) w.keys
      with ⟨σ', outs⟩
    simp [downloadRange, h]
  · intro hne
    rcases h : runKeys modeOf attemptsOf dlOf opts now
      (toDownloadList (analyzeCache w.keys start stop) retryFailed) w.keys
      with ⟨σ', outs⟩
    simp [downloadMissing, hne, h]
  · intro he
    simp [downloadMissing, he]

/-- Witness for C9's amended theorem: a range of fresh keys has a nonempty
target list, and both schedulers end with `lastUpdate` stamped. -/
theorem scheduler_metadata_bump_witness :
    (downloadRange (fun _ => Mode.remote) (fun _ _ => Except.ok []) (fun _ _ => true)
        defOpts 1 2 7 ⟨fun _ => freshKS, none⟩).1.global =
      some (saveMetadata (loadMetadata none) 7) ∧
    toDownloadList (analyzeCache (fun _ => freshKS) 1 2) false ≠ [] ∧
    (downloadMissing (fun _ => Mode.remote) (fun _ _ => Except.ok []) (fun _ _ => true)
        defOpts false 1 2 7 ⟨fun _ => freshKS, none⟩).1.global =
      some (saveMetadata (loadMetadata none) 7) := by
  have h := scheduler_metadata_bump (fun _ => Mode.remote) (fun _ _ => Except.ok [])
    (fun _ _ => true) defOpts false 1 2 7 ⟨fun _ => freshKS, none⟩
  exact ⟨h.1, by decide, h.2.1 (by decide)⟩
